import Mathlib

/-!
Verification of the scoring-and-tiering pipeline of the Sales_Lead_Nurture-Model
repository (src/xgboost-api/app.py and src/xgboost-api/dashboard.py).

Records are association lists from field names to values, a data frame is a
column list together with a row list, and the model is an abstract function
from a projected record to its positive-class probability (a rational number,
standing in for the float the classifier returns).  Every definition below is
translated from the Python source; the theorems settle the frozen claims about
that source.
-/

set_option autoImplicit false

/-- Field values of a record: string, number, boolean, or null, as in the
JSON documents read from the input store. -/
inductive Value where
  | str (s : String)
  | num (q : ℚ)
  | boolV (b : Bool)
  | null
deriving DecidableEq, Repr

/-- One customer/lead record: a mapping from field name to value, kept as an
insertion-ordered association list (Python dict semantics). -/
abbrev Record := List (String × Value)

/-- Dictionary lookup `record[c]`; absent keys read as null. -/
def getVal : Record → String → Value
  | [], _ => Value.null
  | (k, v) :: r, c => if k = c then v else getVal r c

/-- Whether the record has field `c`. -/
def hasKey : Record → String → Bool
  | [], _ => false
  | (k, _) :: r, c => k = c || hasKey r c

/-- Dictionary assignment `record[c] = v`: replaces the value in place when the
key exists, appends the pair otherwise (Python dict update semantics). -/
def setVal : Record → String → Value → Record
  | [], c, v => [(c, v)]
  | (k, w) :: r, c, v => if k = c then (c, v) :: r else (k, w) :: setVal r c v

/-- A pandas data frame: a list of column names plus a list of rows. -/
structure DataFrame where
  cols : List String
  rows : List Record
deriving DecidableEq, Repr

/-- The pandas `df.empty` test: true when either axis has length zero. -/
def DataFrame.empty (df : DataFrame) : Bool :=
  df.rows.isEmpty || df.cols.isEmpty

/-- The Required Feature Set of app.py (lines 95-100): the 17 column names the
model expects, in model-expected order. -/
def requiredFeatures : List String :=
  ["Age", "Gender", "Annual Income", "Income Bracket", "Marital Status",
   "Employment Status", "Region", "Urban/Rural Flag", "State", "ZIP Code",
   "Plan Preference Type", "Web Form Completion Rate", "Quote Requested",
   "Application Started", "Behavior Score", "Application Submitted",
   "Application Applied"]

/-- Projection of one row onto a column list, as pandas column selection does
per row: keep exactly the requested columns, in the requested order. -/
def projectRow : List String → Record → Record
  | [], _ => []
  | c :: cs, r => (c, getVal r c) :: projectRow cs r

/-- The pandas column selection `df[cols]` (app.py line 107,
`input_df = df[required]`). -/
def selectColumns (df : DataFrame) (cols : List String) : DataFrame :=
  ⟨cols, df.rows.map (projectRow cols)⟩

/-- The pandas column assignment `df[c] = ...`: overwrites the column in place
when present, appends it as the last column otherwise. -/
def assignColumn (df : DataFrame) (c : String) (f : Record → Value) : DataFrame :=
  ⟨if c ∈ df.cols then df.cols else df.cols ++ [c],
   df.rows.map (fun r => setVal r c (f r))⟩

/-- Numeric reading of a value (used to read the PTB_Score column back when
deriving the tier). -/
def asNum : Value → ℚ
  | Value.num q => q
  | _ => 0

/-- The black-box classifier: maps a projected record to its positive-class
probability, `model.predict_proba(input_df)[:, 1]` per row. -/
abbrev Model := Record → ℚ

/-- app.py lines 107-109: the PTB score of one row is the model's
positive-class probability on the row projected to the required features,
multiplied by 100. -/
def ptbScore (model : Model) (r : Record) : ℚ :=
  model (projectRow requiredFeatures r) * 100

/-- The score-to-tier threshold function of app.py (lines 111-119),
probability-percentage mode: thresholds 90 / 75 / 50. -/
def tier (score : ℚ) : String :=
  if score ≥ 90 then "Platinum"
  else if score ≥ 75 then "Gold"
  else if score ≥ 50 then "Silver"
  else "Bronze"

/-- Ordinal rank of a tier label, Bronze < Silver < Gold < Platinum. -/
def tierRank : String → ℕ
  | "Silver" => 1
  | "Gold" => 2
  | "Platinum" => 3
  | _ => 0

/-- app.py lines 107-121: add the `PTB_Score` column (probability times 100)
and then the `Lead_Tier` column (tier of the PTB_Score column). -/
def scoreFrame (model : Model) (df : DataFrame) : DataFrame :=
  assignColumn
    (assignColumn df "PTB_Score" (fun r => Value.num (ptbScore model r)))
    "Lead_Tier"
    (fun r => Value.str (tier (asNum (getVal r "PTB_Score"))))

/-- app.py line 102: the required columns absent from the frame's column
space, in required-list order. -/
def missingOf (df : DataFrame) : List String :=
  requiredFeatures.filter (fun c => decide (c ∉ df.cols))

/-- Outcome of one scoring run of app.py lines 88-131. -/
inductive RunResult where
  | noData
  | missingCols (missing : List String)
  | scored (out : DataFrame)
deriving DecidableEq, Repr

/-- The scoring pipeline of app.py lines 88-121: empty input short-circuits,
missing required columns are reported without scoring, otherwise the frame is
scored and tiered. -/
def runPipeline (model : Model) (df : DataFrame) : RunResult :=
  if df.empty then RunResult.noData
  else if (missingOf df).isEmpty then RunResult.scored (scoreFrame model df)
  else RunResult.missingCols (missingOf df)

/-- Cosmos `upsert_item`: replace the stored record with the same `id` when
one exists, append the record otherwise. -/
def upsert (sink : List Record) (r : Record) : List Record :=
  if sink.any (fun s => decide (getVal s "id" = getVal r "id")) then
    sink.map (fun s => if getVal s "id" = getVal r "id" then r else s)
  else sink ++ [r]

/-- app.py line 74: the record uploaded for row `i` carries a freshly
generated token as its `id` (uuid4 in the source, abstracted as a token
generator indexed by write position). -/
def withFreshId (gen : ℕ → String) (i : ℕ) (r : Record) : Record :=
  setVal r "id" (Value.str (gen i))

/-- The upload loop of app.py lines 72-75, with a fault model: `failAt i`
means the upsert of the `i`-th record raises, which aborts the loop (the
exception is caught at line 79 and reported as one batch-level failure).
Returns the final sink contents and whether the loop completed. -/
def uploadLoop (gen : ℕ → String) (failAt : ℕ → Bool) :
    List Record → ℕ → List Record → List Record × Bool
  | [], _, sink => (sink, true)
  | r :: rs, i, sink =>
    if failAt i then (sink, false)
    else uploadLoop gen failAt rs (i + 1) (upsert sink (withFreshId gen i r))

/-- app.py lines 57-80 (`upload_results`), fault-free path: upsert every row
of the frame, each with a freshly generated id. -/
def upload_results (gen : ℕ → String) (df : DataFrame)
    (sink : List Record) : List Record :=
  (uploadLoop gen (fun _ => false) df.rows 0 sink).1

/-- dashboard.py lines 30-39 (`upload_to_cosmos`): upsert every row of the
frame unchanged — no id is generated in this variant. -/
def upload_to_cosmos (df : DataFrame) (sink : List Record) : List Record :=
  df.rows.foldl upsert sink

/-- app.py lines 36-54 (`clear_output_container`): delete every record of the
output container.  The except branch (lines 53-54) catches a clear failure,
displays it and does NOT re-raise; `clearFails` models the fault where the
read at line 47 raises before any deletion, leaving the container as it
was. -/
def clear_output_container (clearFails : Bool) (sink : List Record) :
    List Record :=
  if clearFails then sink else []

/-- app.py lines 126-128: the Clear and Upload button handler.  Because the
clear failure is swallowed inside clear_output_container, `upload_results`
runs afterwards in every case, against whatever the clear left behind, under
the upload's own fault schedule `failAt`. -/
def clearAndUpload (gen : ℕ → String) (clearFails : Bool)
    (failAt : ℕ → Bool) (df : DataFrame) (sink : List Record) : List Record :=
  (uploadLoop gen failAt df.rows 0 (clear_output_container clearFails sink)).1

/-- One full run of app.py lines 88-131: run the pipeline and, when scoring
succeeded and the button was pressed, clear and upload (with the clear and
upload fault schedules); otherwise the output sink is untouched. -/
def runApp (model : Model) (gen : ℕ → String) (clearFails : Bool)
    (failAt : ℕ → Bool) (df : DataFrame) (pressed : Bool)
    (sink : List Record) : RunResult × List Record :=
  match runPipeline model df with
  | RunResult.scored out =>
      if pressed then
        (RunResult.scored out, clearAndUpload gen clearFails failAt out sink)
      else (RunResult.scored out, sink)
  | res => (res, sink)

/-- Modelled from the spec: the list of records the upload is expected to
write for rows starting at write position `i` — each row with its freshly
generated id, in row order.  Used to compare the upload loop against the
spec's description of the written set. -/
def writtenFrom (gen : ℕ → String) : ℕ → List Record → List Record
  | _, [] => []
  | i, r :: rs => withFreshId gen i r :: writtenFrom gen (i + 1) rs

/-- Modelled from the spec: the full expected written set of a batch. -/
def writtenRecords (gen : ℕ → String) (rows : List Record) : List Record :=
  writtenFrom gen 0 rows

/-- Number of records the upload loop upserts before the first injected
fault (all of them when no fault fires). -/
def writtenCount (failAt : ℕ → Bool) : List Record → ℕ → ℕ
  | [], _ => 0
  | _ :: rs, i => if failAt i then 0 else writtenCount failAt rs (i + 1) + 1

/-- Concrete two-row batch used to exercise the upload loop fault model. -/
def faultRows : List Record :=
  [[("Age", Value.num 45)], [("Age", Value.num 52)]]

/-- Concrete token generator for the fault scenario. -/
def faultGen : ℕ → String := fun i => Nat.repr i

/-- Fault injection: the second upsert (index 1) raises. -/
def faultAtSnd : ℕ → Bool := fun i => decide (i = 1)

/-- Concrete one-record input: all 17 required columns, null values. -/
def fullRow : Record := projectRow requiredFeatures []

/-- Concrete one-row frame with exactly the required columns. -/
def fullDf : DataFrame := ⟨requiredFeatures, [fullRow]⟩

/-- Concrete model that returns probability 0.91 on every record. -/
def model91 : Model := fun _ => 91 / 100

/-- Concrete injective token generator standing in for uuid4: the `i`-th
token is a run of `i+1` letters. -/
def genTok : ℕ → String := fun i => String.mk (List.replicate (i + 1) 'u')

/-- Concrete already-scored record carrying an `id` from the input store,
used on the dashboard.py write-back path. -/
def dashRow : Record :=
  [("id", Value.str "lead-1"), ("PTB_Score", Value.num 91),
   ("Lead_Tier", Value.str "Platinum")]

/-- Concrete one-row frame around `dashRow`. -/
def dashDf : DataFrame :=
  ⟨["id", "PTB_Score", "Lead_Tier"], [dashRow]⟩

theorem getVal_setVal_same (r : Record) (c : String) (v : Value) :
    getVal (setVal r c v) c = v := by
  induction r with
  | nil => simp [setVal, getVal]
  | cons p r ih =>
      obtain ⟨k, w⟩ := p
      by_cases h : k = c
      · simp [setVal, getVal, h]
      · simp [setVal, getVal, h, ih]

theorem getVal_setVal_ne (r : Record) (c c' : String) (v : Value) (h : c' ≠ c) :
    getVal (setVal r c v) c' = getVal r c' := by
  have hcc : ¬ c = c' := fun hh => h hh.symm
  induction r with
  | nil => simp [setVal, getVal, hcc]
  | cons p r ih =>
      obtain ⟨k, w⟩ := p
      by_cases hk : k = c
      · simp [setVal, getVal, hk, hcc]
      · by_cases hk' : k = c'
        · simp [setVal, getVal, hk, hk', h]
        · simp [setVal, getVal, hk, hk', ih]

theorem tier_eq_platinum {u : ℚ} (h : 90 ≤ u) : tier u = "Platinum" := by
  simp [tier, h]

theorem tier_eq_gold {u : ℚ} (h1 : 75 ≤ u) (h2 : u < 90) : tier u = "Gold" := by
  simp [tier, h1, not_le.mpr h2]

theorem tier_eq_silver {u : ℚ} (h1 : 50 ≤ u) (h2 : u < 75) : tier u = "Silver" := by
  have h90 : u < 90 := by linarith
  simp [tier, h1, not_le.mpr h2, not_le.mpr h90]

theorem tier_eq_bronze {u : ℚ} (h : u < 50) : tier u = "Bronze" := by
  have h75 : u < 75 := by linarith
  have h90 : u < 90 := by linarith
  simp [tier, not_le.mpr h, not_le.mpr h75, not_le.mpr h90]

theorem tier_cases (u : ℚ) :
    (90 ≤ u ∧ tier u = "Platinum") ∨ (75 ≤ u ∧ u < 90 ∧ tier u = "Gold") ∨
    (50 ≤ u ∧ u < 75 ∧ tier u = "Silver") ∨ (u < 50 ∧ tier u = "Bronze") := by
  by_cases h1 : 90 ≤ u
  · exact Or.inl ⟨h1, tier_eq_platinum h1⟩
  · by_cases h2 : 75 ≤ u
    · exact Or.inr (Or.inl ⟨h2, not_le.mp h1, tier_eq_gold h2 (not_le.mp h1)⟩)
    · by_cases h3 : 50 ≤ u
      · exact Or.inr (Or.inr (Or.inl
          ⟨h3, not_le.mp h2, tier_eq_silver h3 (not_le.mp h2)⟩))
      · exact Or.inr (Or.inr (Or.inr
          ⟨not_le.mp h3, tier_eq_bronze (not_le.mp h3)⟩))

/-- C1: in probability-percentage mode the tier function returns Platinum iff
the score is at least 90, Gold iff it lies in [75, 90), Silver iff it lies in
[50, 75), and Bronze iff it is below 50; these four intervals partition the
score range, and the tier is a total, deterministic, monotonically
non-decreasing function of the score. -/
theorem tier_partition_monotone (s t : ℚ) :
    (tier s = "Platinum" ↔ 90 ≤ s) ∧
    (tier s = "Gold" ↔ 75 ≤ s ∧ s < 90) ∧
    (tier s = "Silver" ↔ 50 ≤ s ∧ s < 75) ∧
    (tier s = "Bronze" ↔ s < 50) ∧
    (s ≤ t → tierRank (tier s) ≤ tierRank (tier t)) := by
  refine ⟨?_, ?_, ?_, ?_, ?_⟩
  · constructor
    · intro hs
      rcases tier_cases s with ⟨h, _⟩ | ⟨_, _, he⟩ | ⟨_, _, he⟩ | ⟨_, he⟩
      · exact h
      all_goals (rw [he] at hs; exact absurd hs (by decide))
    · exact tier_eq_platinum
  · constructor
    · intro hs
      rcases tier_cases s with ⟨_, he⟩ | ⟨h1, h2, _⟩ | ⟨_, _, he⟩ | ⟨_, he⟩
      · rw [he] at hs; exact absurd hs (by decide)
      · exact ⟨h1, h2⟩
      all_goals (rw [he] at hs; exact absurd hs (by decide))
    · exact fun h => tier_eq_gold h.1 h.2
  · constructor
    · intro hs
      rcases tier_cases s with ⟨_, he⟩ | ⟨_, _, he⟩ | ⟨h1, h2, _⟩ | ⟨_, he⟩
      · rw [he] at hs; exact absurd hs (by decide)
      · rw [he] at hs; exact absurd hs (by decide)
      · exact ⟨h1, h2⟩
      · rw [he] at hs; exact absurd hs (by decide)
    · exact fun h => tier_eq_silver h.1 h.2
  · constructor
    · intro hs
      rcases tier_cases s with ⟨_, he⟩ | ⟨_, _, he⟩ | ⟨_, _, he⟩ | ⟨h1, _⟩
      · rw [he] at hs; exact absurd hs (by decide)
      · rw [he] at hs; exact absurd hs (by decide)
      · rw [he] at hs; exact absurd hs (by decide)
      · exact h1
    · exact tier_eq_bronze
  · intro hst
    rcases tier_cases s with ⟨hs1, hse⟩ | ⟨hs1, hs2, hse⟩ | ⟨hs1, hs2, hse⟩ |
        ⟨hs1, hse⟩ <;>
      rcases tier_cases t with ⟨ht1, hte⟩ | ⟨ht1, ht2, hte⟩ | ⟨ht1, ht2, hte⟩ |
          ⟨ht1, hte⟩ <;>
      rw [hse, hte] <;> first | decide | (exfalso; linarith)

/-- Witness for C1 at concrete scores 50 and 92. -/
theorem tier_partition_monotone_witness :
    (tier 92 = "Platinum" ↔ 90 ≤ (92 : ℚ)) ∧
    ((50 : ℚ) ≤ 92 → tierRank (tier 50) ≤ tierRank (tier 92)) :=
  ⟨(tier_partition_monotone 92 92).1,
   (tier_partition_monotone 50 92).2.2.2.2⟩

/-- C10: the tier function is total on every rational score, not only [0,100]:
it always returns one of the four labels, every score below 50 (negative
scores included) maps to Bronze, and every score at least 90 (scores above 100
included) maps to Platinum. -/
theorem tier_total (s : ℚ) :
    (tier s = "Bronze" ∨ tier s = "Silver" ∨ tier s = "Gold" ∨
      tier s = "Platinum") ∧
    (s < 50 → tier s = "Bronze") ∧
    (90 ≤ s → tier s = "Platinum") := by
  refine ⟨?_, fun h => tier_eq_bronze h, fun h => tier_eq_platinum h⟩
  rcases tier_cases s with ⟨_, he⟩ | ⟨_, _, he⟩ | ⟨_, _, he⟩ | ⟨_, he⟩ <;>
    simp [he]

/-- Witness for C10 at the out-of-range scores -5 and 150. -/
theorem tier_total_witness :
    tier (-5) = "Bronze" ∧ tier 150 = "Platinum" :=
  ⟨(tier_total (-5)).2.1 (by norm_num), (tier_total 150).2.2 (by norm_num)⟩

theorem getVal_projectRow (cols : List String) (r : Record) (c : String)
    (h : c ∈ cols) : getVal (projectRow cols r) c = getVal r c := by
  induction cols with
  | nil => cases h
  | cons c0 cs ih =>
      rcases List.mem_cons.mp h with hh | hh
      · subst hh; simp [projectRow, getVal]
      · by_cases hc : c0 = c
        · simp [projectRow, getVal, hc]
        · simp [projectRow, getVal, hc, ih hh]

theorem projectRow_keys (cols : List String) (r : Record) :
    (projectRow cols r).map Prod.fst = cols := by
  induction cols with
  | nil => rfl
  | cons c0 cs ih => simp [projectRow, ih]

/-- C4: when every required column is present, the projection `df[required]`
yields a frame with exactly the 17 required columns, no more and no fewer, in
model-expected order, the same row count, the same row order, and unchanged
values in every required column of every row. -/
theorem selectColumns_spec (df : DataFrame)
    (_h : ∀ c ∈ requiredFeatures, c ∈ df.cols) :
    (selectColumns df requiredFeatures).cols = requiredFeatures ∧
    requiredFeatures.length = 17 ∧
    (selectColumns df requiredFeatures).rows.length = df.rows.length ∧
    (∀ i : ℕ, ((selectColumns df requiredFeatures).rows[i]?).map
        (fun row : Record => row.map Prod.fst) =
      (df.rows[i]?).map (fun _ => requiredFeatures)) ∧
    (∀ (i : ℕ) (c : String), c ∈ requiredFeatures →
      ((selectColumns df requiredFeatures).rows[i]?).map
          (fun row => getVal row c) =
        (df.rows[i]?).map (fun row => getVal row c)) := by
  refine ⟨rfl, rfl, by simp [selectColumns], ?_, ?_⟩
  · intro i
    rw [show (selectColumns df requiredFeatures).rows =
        df.rows.map (projectRow requiredFeatures) from rfl,
      List.getElem?_map]
    cases df.rows[i]? with
    | none => rfl
    | some r => simp [projectRow_keys]
  · intro i c hc
    rw [show (selectColumns df requiredFeatures).rows =
        df.rows.map (projectRow requiredFeatures) from rfl,
      List.getElem?_map]
    cases df.rows[i]? with
    | none => rfl
    | some r => simp [getVal_projectRow _ _ _ hc]

/-- Witness for C4 on a concrete one-row frame with all required columns. -/
theorem selectColumns_spec_witness :
    (selectColumns fullDf requiredFeatures).cols = requiredFeatures ∧
    (selectColumns fullDf requiredFeatures).rows.length =
      fullDf.rows.length := by
  have h := selectColumns_spec fullDf (fun c hc => hc)
  exact ⟨h.1, h.2.2.1⟩

theorem scoreFrame_rows (model : Model) (df : DataFrame) (i : ℕ) :
    (scoreFrame model df).rows[i]? =
      (df.rows[i]?).map (fun r =>
        setVal (setVal r "PTB_Score" (Value.num (ptbScore model r)))
          "Lead_Tier" (Value.str (tier (ptbScore model r)))) := by
  simp only [scoreFrame, assignColumn, List.getElem?_map]
  cases df.rows[i]? with
  | none => rfl
  | some r => simp [getVal_setVal_same, asNum]

/-- C2: in probability-percentage mode every row's PTB_Score equals the
model's positive-class probability on the projected row times 100, and a row
on which the model outputs probability 0.91 receives PTB_Score 91 and
Lead_Tier Platinum. -/
theorem ptb_score_is_probability_percentage (model : Model) (df : DataFrame)
    (i : ℕ) (r : Record) (hr : df.rows[i]? = some r) :
    ((scoreFrame model df).rows[i]?).map (fun out => getVal out "PTB_Score") =
      some (Value.num (model (projectRow requiredFeatures r) * 100)) ∧
    (model (projectRow requiredFeatures r) = 91 / 100 →
      ((scoreFrame model df).rows[i]?).map
          (fun out => getVal out "PTB_Score") = some (Value.num 91) ∧
      ((scoreFrame model df).rows[i]?).map
          (fun out => getVal out "Lead_Tier") =
        some (Value.str "Platinum")) := by
  have hrow := scoreFrame_rows model df i
  rw [hr] at hrow
  have hscore : getVal
      (setVal (setVal r "PTB_Score" (Value.num (ptbScore model r)))
        "Lead_Tier" (Value.str (tier (ptbScore model r)))) "PTB_Score" =
      Value.num (ptbScore model r) := by
    rw [getVal_setVal_ne _ _ _ _ (by decide), getVal_setVal_same]
  constructor
  · rw [hrow]; simp only [Option.map_some']; rw [hscore]; rfl
  · intro hm
    have h91 : ptbScore model r = 91 := by
      unfold ptbScore; rw [hm]; norm_num
    constructor
    · rw [hrow]; simp only [Option.map_some']; rw [hscore, h91]
    · rw [hrow]
      simp only [Option.map_some', getVal_setVal_same, h91,
        tier_eq_platinum (show (90 : ℚ) ≤ 91 by norm_num)]

/-- Witness for C2: a one-row frame scored by the constant-0.91 model gets
PTB_Score 91 and Lead_Tier Platinum. -/
theorem ptb_score_is_probability_percentage_witness :
    ((scoreFrame model91 fullDf).rows[0]?).map
        (fun out => getVal out "PTB_Score") = some (Value.num 91) ∧
    ((scoreFrame model91 fullDf).rows[0]?).map
        (fun out => getVal out "Lead_Tier") = some (Value.str "Platinum") := by
  have h := ptb_score_is_probability_percentage model91 fullDf 0 fullRow rfl
  exact h.2 rfl

theorem mem_addCol (cs : List String) (c c' : String) :
    c' ∈ (if c ∈ cs then cs else cs ++ [c]) ↔ c' ∈ cs ∨ c' = c := by
  by_cases h : c ∈ cs
  · rw [if_pos h]
    constructor
    · exact Or.inl
    · rintro (hc | rfl)
      · exact hc
      · exact h
  · rw [if_neg h]
    simp

/-- C8: scoring adds only the PTB_Score and Lead_Tier fields: every other
column keeps its value in every row, the row count is unchanged, and the
column space of the scored frame is exactly the input columns plus those two
fields. -/
theorem scoreFrame_preserves_fields (model : Model) (df : DataFrame)
    (c : String) (hc1 : c ≠ "PTB_Score") (hc2 : c ≠ "Lead_Tier") :
    (∀ i : ℕ, ((scoreFrame model df).rows[i]?).map (fun out => getVal out c) =
      (df.rows[i]?).map (fun r => getVal r c)) ∧
    (scoreFrame model df).rows.length = df.rows.length ∧
    (∀ c', c' ∈ (scoreFrame model df).cols ↔
      c' ∈ df.cols ∨ c' = "PTB_Score" ∨ c' = "Lead_Tier") := by
  refine ⟨?_, by simp [scoreFrame, assignColumn], ?_⟩
  · intro i
    rw [scoreFrame_rows]
    cases df.rows[i]? with
    | none => rfl
    | some r =>
        simp only [Option.map_some']
        rw [getVal_setVal_ne _ _ _ _ hc2, getVal_setVal_ne _ _ _ _ hc1]
  · intro c'
    simp only [scoreFrame, assignColumn]
    rw [mem_addCol, mem_addCol, or_assoc]

/-- Witness for C8: the Age column of a concrete scored frame is untouched
and the row count is preserved. -/
theorem scoreFrame_preserves_fields_witness :
    ((scoreFrame model91 fullDf).rows[0]?).map (fun out => getVal out "Age") =
      (fullDf.rows[0]?).map (fun r => getVal r "Age") ∧
    (scoreFrame model91 fullDf).rows.length = fullDf.rows.length := by
  have h := scoreFrame_preserves_fields model91 fullDf "Age"
    (by decide) (by decide)
  exact ⟨h.1 0, h.2.1⟩

theorem mem_missingOf (df : DataFrame) (c : String) :
    c ∈ missingOf df ↔ c ∈ requiredFeatures ∧ c ∉ df.cols := by
  simp [missingOf, List.mem_filter]

/-- C3: on a non-empty input frame lacking at least one required column, the
pipeline reports exactly the list of all missing required column names, the
result is never a scored frame, and the outcome does not depend on the model
(the model is not invoked). -/
theorem strict_missing_reported (model model' : Model) (df : DataFrame)
    (hne : df.empty = false) (c : String) (hc : c ∈ requiredFeatures)
    (habs : c ∉ df.cols) :
    runPipeline model df = RunResult.missingCols (missingOf df) ∧
    c ∈ missingOf df ∧
    (∀ c', c' ∈ missingOf df ↔ c' ∈ requiredFeatures ∧ c' ∉ df.cols) ∧
    (∀ out, runPipeline model df ≠ RunResult.scored out) ∧
    runPipeline model' df = runPipeline model df := by
  have hmem : c ∈ missingOf df := (mem_missingOf df c).mpr ⟨hc, habs⟩
  have hnonempty : (missingOf df).isEmpty = false := by
    rw [List.isEmpty_eq_false]
    exact List.ne_nil_of_mem hmem
  have hrun : ∀ m : Model,
      runPipeline m df = RunResult.missingCols (missingOf df) := by
    intro m
    simp [runPipeline, hne, hnonempty]
  refine ⟨hrun model, hmem, fun c' => mem_missingOf df c', ?_, ?_⟩
  · intro out
    rw [hrun model]
    exact fun hcontra => RunResult.noConfusion hcontra
  · rw [hrun model, hrun model']

/-- Witness for C3: a one-row frame having only an Age column. -/
theorem strict_missing_reported_witness :
    runPipeline model91 ⟨["Age"], [[("Age", Value.num 45)]]⟩ =
      RunResult.missingCols
        (missingOf ⟨["Age"], [[("Age", Value.num 45)]]⟩) ∧
    "Gender" ∈ missingOf ⟨["Age"], [[("Age", Value.num 45)]]⟩ := by
  have h := strict_missing_reported model91 model91
    ⟨["Age"], [[("Age", Value.num 45)]]⟩ rfl "Gender"
    (by decide) (by decide)
  exact ⟨h.1, h.2.1⟩

/-- C5: an empty input frame short-circuits the whole run with the no-data
signal: the model is never invoked (the pipeline outcome is independent of
the model) and the output sink is left untouched, whatever the button state
and the clear/upload fault schedules. -/
theorem empty_input_short_circuits (model model' : Model) (gen : ℕ → String)
    (clearFails : Bool) (failAt : ℕ → Bool) (df : DataFrame)
    (pressed : Bool) (sink : List Record) (he : df.empty = true) :
    runApp model gen clearFails failAt df pressed sink =
      (RunResult.noData, sink) ∧
    runPipeline model df = RunResult.noData ∧
    runPipeline model' df = runPipeline model df := by
  have hrun : ∀ m : Model, runPipeline m df = RunResult.noData := by
    intro m; simp [runPipeline, he]
  refine ⟨?_, hrun model, by rw [hrun model, hrun model']⟩
  simp [runApp, hrun model]

/-- Witness for C5 on the empty frame. -/
theorem empty_input_short_circuits_witness :
    runApp model91 Nat.repr true (fun _ => false) ⟨[], []⟩ true [dashRow] =
      (RunResult.noData, [dashRow]) := by
  exact (empty_input_short_circuits model91 model91 Nat.repr true
    (fun _ => false) ⟨[], []⟩ true [dashRow] rfl).1

theorem genTok_injective : Function.Injective genTok := by
  intro a b h
  have hdata : List.replicate (a + 1) 'u' = List.replicate (b + 1) 'u' := by
    injection h
  have hlen := congrArg List.length hdata
  simpa using hlen

theorem getVal_withFreshId (gen : ℕ → String) (i : ℕ) (r : Record) :
    getVal (withFreshId gen i r) "id" = Value.str (gen i) :=
  getVal_setVal_same r "id" (Value.str (gen i))

theorem upsert_append (sink : List Record) (r : Record)
    (h : ∀ s ∈ sink, getVal s "id" ≠ getVal r "id") :
    upsert sink r = sink ++ [r] := by
  have hany : sink.any
      (fun s => decide (getVal s "id" = getVal r "id")) = false := by
    rw [List.any_eq_false]
    intro s hs
    simp [h s hs]
  simp [upsert, hany]

theorem uploadLoop_spec (gen : ℕ → String) (hg : Function.Injective gen)
    (failAt : ℕ → Bool) (rows : List Record) :
    ∀ (i : ℕ) (sink : List Record),
    (∀ s ∈ sink, ∀ j, i ≤ j → getVal s "id" ≠ Value.str (gen j)) →
    (uploadLoop gen failAt rows i sink).1 =
      sink ++ (writtenFrom gen i rows).take (writtenCount failAt rows i) ∧
    ((uploadLoop gen failAt rows i sink).2 = true →
      (uploadLoop gen failAt rows i sink).1 = sink ++ writtenFrom gen i rows) := by
  induction rows with
  | nil =>
      intro i sink hs
      simp [uploadLoop, writtenFrom, writtenCount]
  | cons r rs ih =>
      intro i sink hs
      by_cases hf : failAt i = true
      · constructor
        · simp [uploadLoop, hf, writtenCount, writtenFrom]
        · intro hsucc
          exfalso
          simp [uploadLoop, hf] at hsucc
      · have hfb : failAt i = false := by
          cases hfa : failAt i
          · rfl
          · exact absurd hfa hf
        have hup : upsert sink (withFreshId gen i r) =
            sink ++ [withFreshId gen i r] := by
          apply upsert_append
          intro s hsmem
          rw [getVal_withFreshId]
          exact hs s hsmem i le_rfl
        have hs' : ∀ s ∈ sink ++ [withFreshId gen i r], ∀ j, i + 1 ≤ j →
            getVal s "id" ≠ Value.str (gen j) := by
          intro s hsmem j hj
          rcases List.mem_append.mp hsmem with hmem | hmem
          · exact hs s hmem j (le_trans (Nat.le_succ i) hj)
          · rw [List.mem_singleton] at hmem
            subst hmem
            rw [getVal_withFreshId]
            intro heq
            have h' : gen i = gen j := by injection heq
            have h2 := hg h'
            omega
        have hloop : uploadLoop gen failAt (r :: rs) i sink =
            uploadLoop gen failAt rs (i + 1) (sink ++ [withFreshId gen i r]) := by
          simp [uploadLoop, hfb, hup]
        rcases ih (i + 1) (sink ++ [withFreshId gen i r]) hs' with ⟨h1, h2⟩
        rw [hloop]
        constructor
        · rw [h1]
          rw [show writtenCount failAt (r :: rs) i =
              writtenCount failAt rs (i + 1) + 1 by
            simp [writtenCount, hfb]]
          rw [show writtenFrom gen i (r :: rs) =
              withFreshId gen i r :: writtenFrom gen (i + 1) rs from rfl]
          rw [List.take_succ_cons, List.append_assoc]
          rfl
        · intro hsucc
          rw [h2 hsucc,
            show writtenFrom gen i (r :: rs) =
              withFreshId gen i r :: writtenFrom gen (i + 1) rs from rfl,
            List.append_assoc]
          rfl

theorem uploadLoop_noFail (gen : ℕ → String) (rows : List Record) :
    ∀ (i : ℕ) (sink : List Record),
      (uploadLoop gen (fun _ => false) rows i sink).2 = true := by
  induction rows with
  | nil => intro i sink; rfl
  | cons r rs ih =>
      intro i sink
      simp only [uploadLoop, Bool.false_eq_true, if_false]
      exact ih _ _

theorem upload_results_eq_written (gen : ℕ → String)
    (hg : Function.Injective gen) (df : DataFrame) :
    upload_results gen df [] = writtenRecords gen df.rows := by
  have h := uploadLoop_spec gen hg (fun _ => false) df.rows 0 []
    (by intro s hs; cases hs)
  have hsucc := uploadLoop_noFail gen df.rows 0 []
  have h2 := h.2 hsucc
  simpa [upload_results, writtenRecords] using h2

theorem writtenFrom_getElem (gen : ℕ → String) (rows : List Record) :
    ∀ i j : ℕ, (writtenFrom gen i rows)[j]? =
      (rows[j]?).map (fun r => withFreshId gen (i + j) r) := by
  induction rows with
  | nil => intro i j; simp [writtenFrom]
  | cons r rs ih =>
      intro i j
      cases j with
      | zero => simp [writtenFrom]
      | succ j' =>
          rw [show writtenFrom gen i (r :: rs) =
              withFreshId gen i r :: writtenFrom gen (i + 1) rs from rfl,
            List.getElem?_cons_succ, List.getElem?_cons_succ, ih (i + 1) j',
            show i + 1 + j' = i + (j' + 1) by omega]

/-- C6 counterexample: dashboard.py's upload_to_cosmos variant writes the
input record unchanged, so the written record's id is exactly the id the
input record already carried — not a freshly generated token assigned at
write time. -/
theorem upload_to_cosmos_keeps_input_id :
    upload_to_cosmos dashDf [] = [dashRow] ∧
    getVal dashRow "id" = Value.str "lead-1" := by
  constructor <;> rfl

/-- C6 amended: in app.py's upload_results every written record carries the
freshly generated token of its write position as id, overwriting whatever id
the input row carried, and distinct rows receive distinct ids; dashboard.py's
upload_to_cosmos variant instead writes records unchanged, keeping the
input's id. -/
theorem upload_results_fresh_ids (gen : ℕ → String)
    (hg : Function.Injective gen) (df : DataFrame) (i : ℕ) (r : Record)
    (hr : df.rows[i]? = some r) :
    ((upload_results gen df [])[i]?).map (fun s => getVal s "id") =
      some (Value.str (gen i)) ∧
    (∀ v : Value, getVal (setVal r "id" v) "id" = v) ∧
    (∀ (j : ℕ) (q : Record), df.rows[j]? = some q → i ≠ j →
      ((upload_results gen df [])[i]?).map (fun s => getVal s "id") ≠
        ((upload_results gen df [])[j]?).map (fun s => getVal s "id")) := by
  have hup := upload_results_eq_written gen hg df
  have hid : ∀ (k : ℕ) (q : Record), df.rows[k]? = some q →
      ((upload_results gen df [])[k]?).map (fun s => getVal s "id") =
        some (Value.str (gen k)) := by
    intro k q hq
    rw [hup, writtenRecords, writtenFrom_getElem gen df.rows 0 k, hq,
      Option.map_some', Option.map_some', getVal_withFreshId]
    simp
  refine ⟨hid i r hr, fun v => getVal_setVal_same r "id" v, ?_⟩
  intro j q hq hij
  rw [hid i r hr, hid j q hq]
  intro heq
  have h1 : Value.str (gen i) = Value.str (gen j) := by
    injection heq
  have h2 : gen i = gen j := by injection h1
  exact hij (hg h2)

/-- Witness for C6 (amended) on a concrete one-row frame. -/
theorem upload_results_fresh_ids_witness :
    ((upload_results genTok fullDf [])[0]?).map (fun s => getVal s "id") =
      some (Value.str (genTok 0)) :=
  (upload_results_fresh_ids genTok genTok_injective fullDf 0 fullRow rfl).1

/-- C7 counterexample: two records are submitted, the second upsert fails,
the run reports failure, and exactly one record has been written — the sink
is left in a partially written state, neither all records nor none. -/
theorem upload_partial_write :
    (uploadLoop faultGen faultAtSnd faultRows 0 []).2 = false ∧
    (uploadLoop faultGen faultAtSnd faultRows 0 []).1.length = 1 ∧
    faultRows.length = 2 := by
  refine ⟨rfl, rfl, rfl⟩

/-- C7 amended: the sink write is not rolled back on error; the run reports
one batch-level failure and the sink afterwards holds exactly the records
upserted before the failing write (a prefix of the batch), and all records
exactly when no write failed. -/
theorem upload_prefix_semantics (gen : ℕ → String)
    (hg : Function.Injective gen) (failAt : ℕ → Bool) (df : DataFrame) :
    (uploadLoop gen failAt df.rows 0 []).1 =
      (writtenRecords gen df.rows).take (writtenCount failAt df.rows 0) ∧
    ((uploadLoop gen failAt df.rows 0 []).2 = true →
      (uploadLoop gen failAt df.rows 0 []).1 = writtenRecords gen df.rows) := by
  have h := uploadLoop_spec gen hg failAt df.rows 0 []
    (by intro s hs; cases hs)
  constructor
  · have h1 := h.1
    simpa [writtenRecords] using h1
  · intro hsucc
    have h2 := h.2 hsucc
    simpa [writtenRecords] using h2

/-- Witness for C7 (amended) with the fault-free schedule. -/
theorem upload_prefix_semantics_witness :
    (uploadLoop genTok (fun _ => false) fullDf.rows 0 []).1 =
      (writtenRecords genTok fullDf.rows).take
        (writtenCount (fun _ => false) fullDf.rows 0) :=
  (upload_prefix_semantics genTok genTok_injective (fun _ => false) fullDf).1

/-- C9 counterexample: when the clear step fails, its exception is caught
without re-raising (app.py lines 53-54) and the upload still runs, so an
earlier run's record (id "lead-1") survives in the output store next to this
run's freshly written record — the store does not contain exactly this run's
records. -/
theorem clear_and_upload_keeps_stale_record :
    dashRow ∈ clearAndUpload genTok true (fun _ => false)
      ⟨["Age"], [[("Age", Value.num 45)]]⟩ [dashRow] ∧
    clearAndUpload genTok true (fun _ => false)
      ⟨["Age"], [[("Age", Value.num 45)]]⟩ [dashRow] ≠
      writtenRecords genTok [[("Age", Value.num 45)]] := by
  constructor <;> decide

/-- C9 amended: a clear-and-upload run produces a fully independent output
set only when the clear and every upsert succeed: then the store holds
exactly the freshly scored records of that run (the i-th stored record being
the i-th scored row with its fresh id), independent of whatever any earlier
run had written.  A failed clear is swallowed and the upload still runs over
the surviving records, and a mid-loop upload fault leaves only a prefix of
this run's records. -/
theorem clear_and_upload_success_independent (gen : ℕ → String)
    (hg : Function.Injective gen) (failAt : ℕ → Bool) (df : DataFrame)
    (sink : List Record)
    (hsucc : (uploadLoop gen failAt df.rows 0 []).2 = true) :
    clearAndUpload gen false failAt df sink = writtenRecords gen df.rows ∧
    clearAndUpload gen false failAt df sink =
      clearAndUpload gen false failAt df [] ∧
    (∀ (i : ℕ) (r : Record), df.rows[i]? = some r →
      (clearAndUpload gen false failAt df sink)[i]? =
        some (withFreshId gen i r)) := by
  have h := uploadLoop_spec gen hg failAt df.rows 0 []
    (by intro s hs; cases hs)
  have hmain : ∀ s : List Record,
      clearAndUpload gen false failAt df s = writtenRecords gen df.rows := by
    intro s
    unfold clearAndUpload clear_output_container
    simpa [writtenRecords] using h.2 hsucc
  refine ⟨hmain sink, by rw [hmain sink, hmain []], ?_⟩
  intro i r hr
  rw [hmain sink, writtenRecords, writtenFrom_getElem gen df.rows 0 i, hr,
    Option.map_some']
  simp

/-- Witness for C9 (amended) on a fault-free run over a non-empty prior
sink. -/
theorem clear_and_upload_success_independent_witness :
    clearAndUpload genTok false (fun _ => false) fullDf [dashRow] =
      writtenRecords genTok fullDf.rows :=
  (clear_and_upload_success_independent genTok genTok_injective
    (fun _ => false) fullDf [dashRow]
    (uploadLoop_noFail genTok fullDf.rows 0 [])).1
